import Mathlib

/-!
Shallow embedding of the bounded-retention record eviction service of the
repository (source file `src/services/DatabaseCleanupService.ts`).

The service keeps an in-memory map `tableCounters : Map<string, number>`
from table name to the number of inserts observed since the last eviction.
`afterInsert` increments the counter and, when it reaches
`LIMITE_REGISTROS` (500), starts `limparRegistrosAntigos` and resets the
counter to 0.  `limparRegistrosAntigos` queries the oldest
`REGISTROS_PARA_REMOVER` (250) rows ordered ascending by
`COALESCE(created_at, data_registro)` and deletes them, catching any error
and logging it.  `verificarEstadoAtual` walks all known entities, reads the
true row count, evicts once if the count is at or above the threshold, and
seeds the counter with `count % LIMITE_REGISTROS`; a per-table try/catch
logs failures and moves on to the next entity.

The embedding models the store as a per-table list of rows, each carrying a
natural-number recency key (the value of
`COALESCE(created_at, data_registro)`).  The database query
`orderBy(..., "ASC").take(n).getMany()` is modelled as taking the first `n`
elements of the rows sorted ascending by recency key, and
`repository.remove(list)` as keeping exactly the complement of the selected
rows.  Fallible store operations are driven by explicit Boolean failure
flags (`queryFails`, `deleteFails`, `countFails`); the `try/catch` blocks
of the source become a total function on an `Except`-valued body, so that
an error branch can never escape to the caller.
-/

namespace DatabaseCleanup

/-- `DatabaseCleanupService.LIMITE_REGISTROS` (the eviction threshold). -/
def LIMITE_REGISTROS : Nat := 500

/-- `DatabaseCleanupService.REGISTROS_PARA_REMOVER` (the eviction batch size). -/
def REGISTROS_PARA_REMOVER : Nat := 250

/-- A table identifier (`event.metadata.tableName` / `entity.tableName`). -/
abbrev TableName := String

/-- A stored row.  `recencyKey` models the value of
`COALESCE(created_at, data_registro)` used by the eviction query to order
rows oldest-first; `rowId` distinguishes rows with equal keys. -/
structure Row where
  recencyKey : Nat
  rowId : Nat
deriving DecidableEq, Repr

/-- The ordering used by `orderBy("COALESCE(created_at, data_registro)", "ASC")`. -/
def leKey (a b : Row) : Prop := a.recencyKey ≤ b.recencyKey

instance : DecidableRel leKey := fun a b => inferInstanceAs (Decidable (a.recencyKey ≤ b.recencyKey))

instance : IsTotal Row leKey := ⟨fun a b => Nat.le_total a.recencyKey b.recencyKey⟩

instance : IsTrans Row leKey := ⟨fun _ _ _ h h2 => Nat.le_trans h h2⟩

/-- The store's ascending-by-recency ordering of a table's rows. -/
def sortByRecency (rows : List Row) : List Row := List.insertionSort leKey rows

/-- Outcome of one call to `limparRegistrosAntigos`:
the rows still in the table, the rows handed to `repository.remove`,
how many `getMany` queries and how many `remove` calls were attempted,
and whether the `catch` block logged an error. -/
structure EvictResult where
  remaining : List Row
  removedRows : List Row
  queries : Nat
  deletes : Nat
  errorLogged : Bool
deriving Repr

/-- The body of the `try` block of `limparRegistrosAntigos`: query the
oldest `REGISTROS_PARA_REMOVER` rows, and when at least one row matched,
remove exactly those rows.  An `Except.error` models a thrown store error;
its payload records how many `remove` calls were attempted before the
throw.  Returns (remaining rows, removed rows, delete attempts). -/
def limparBody (queryFails deleteFails : Bool) (rows : List Row) :
    Except Nat (List Row × List Row × Nat) :=
  if queryFails then Except.error 0
  else
    let registrosAntigos := (sortByRecency rows).take REGISTROS_PARA_REMOVER
    if 0 < registrosAntigos.length then
      if deleteFails then Except.error 1
      else Except.ok ((sortByRecency rows).drop REGISTROS_PARA_REMOVER,
                      registrosAntigos, 1)
    else Except.ok (rows, [], 0)

/-- `limparRegistrosAntigos`: the `try` body wrapped in the `catch` that
logs the error and returns normally, leaving the table unchanged. -/
def limparRegistrosAntigos (queryFails deleteFails : Bool) (rows : List Row) : EvictResult :=
  match limparBody queryFails deleteFails rows with
  | Except.ok (rem, removed, d) =>
      { remaining := rem, removedRows := removed, queries := 1, deletes := d,
        errorLogged := false }
  | Except.error d =>
      { remaining := rows, removedRows := [], queries := 1, deletes := d,
        errorLogged := true }

/-- The service state: the `tableCounters` map (`none` models a key absent
from the `Map`) and the store's rows per table. -/
structure ServiceState where
  tableCounters : TableName → Option Nat
  rows : TableName → List Row

/-- `tableCounters.set(t, v)`. -/
def setCounter (m : TableName → Option Nat) (t : TableName) (v : Nat) :
    TableName → Option Nat :=
  fun x => if x = t then some v else m x

/-- Point update of the per-table row lists. -/
def setRows (m : TableName → List Row) (t : TableName) (v : List Row) :
    TableName → List Row :=
  fun x => if x = t then v else m x

/-- `afterInsert`: increment the counter for the table (a missing key reads
as 0, as `map.get(t) || 0` does); when the new value reaches
`LIMITE_REGISTROS`, run `limparRegistrosAntigos` on that table's rows and
set the counter to 0.  Returns the new state and whether eviction was
invoked on this call. -/
def afterInsert (queryFails deleteFails : Bool) (s : ServiceState)
    (tableName : TableName) : ServiceState × Bool :=
  let currentCount := (s.tableCounters tableName).getD 0 + 1
  let counters1 := setCounter s.tableCounters tableName currentCount
  if LIMITE_REGISTROS ≤ currentCount then
    let r := limparRegistrosAntigos queryFails deleteFails (s.rows tableName)
    ({ tableCounters := setCounter counters1 tableName 0,
       rows := setRows s.rows tableName r.remaining }, true)
  else
    ({ tableCounters := counters1, rows := s.rows }, false)

/-- One iteration of the entity loop of `verificarEstadoAtual`: on a count
failure the `catch` logs and leaves everything unchanged; otherwise read
the row count, evict once when it is at or above `LIMITE_REGISTROS`, and
seed the counter with `count % LIMITE_REGISTROS` (the count observed
before the eviction call).  Returns (state, eviction invoked, error logged). -/
def verificarTabela (countFails queryFails deleteFails : Bool) (s : ServiceState)
    (tableName : TableName) : ServiceState × Bool × Bool :=
  if countFails then (s, false, true)
  else
    let count := (s.rows tableName).length
    if LIMITE_REGISTROS ≤ count then
      let r := limparRegistrosAntigos queryFails deleteFails (s.rows tableName)
      ({ tableCounters := setCounter s.tableCounters tableName (count % LIMITE_REGISTROS),
         rows := setRows s.rows tableName r.remaining }, true, r.errorLogged)
    else
      ({ tableCounters := setCounter s.tableCounters tableName (count % LIMITE_REGISTROS),
         rows := s.rows }, false, false)

/-- `verificarEstadoAtual`: the startup reconciliation pass over the list
of known entities, in order.  Also returns a log: one entry per processed
table recording (table, eviction invoked, error logged). -/
def verificarEstadoAtual (countFails queryFails deleteFails : TableName → Bool)
    (s : ServiceState) :
    List TableName → ServiceState × List (TableName × Bool × Bool)
  | [] => (s, [])
  | t :: ts =>
      let step := verificarTabela (countFails t) (queryFails t) (deleteFails t) s t
      let rest := verificarEstadoAtual countFails queryFails deleteFails step.1 ts
      (rest.1, (t, step.2) :: rest.2)

/-- Number of log entries of a reconciliation pass that record an eviction
for the given table. -/
def evictionsFor (tableName : TableName) (log : List (TableName × Bool × Bool)) : Nat :=
  log.countP (fun e => e.1 == tableName && e.2.1)

/-- State after delivering `k` insert events for one table, one at a time. -/
def insertTrace (queryFails deleteFails : Bool) (s : ServiceState)
    (tableName : TableName) : Nat → ServiceState
  | 0 => s
  | k + 1 =>
      (afterInsert queryFails deleteFails
        (insertTrace queryFails deleteFails s tableName k) tableName).1

/-- Whether insert number `k + 1` (delivered after `k` previous inserts)
invokes an eviction. -/
def insertEvicts (queryFails deleteFails : Bool) (s : ServiceState)
    (tableName : TableName) (k : Nat) : Bool :=
  (afterInsert queryFails deleteFails
    (insertTrace queryFails deleteFails s tableName k) tableName).2

/-- A state with no counters and no rows, as right after the constructor. -/
def emptyState : ServiceState :=
  { tableCounters := fun _ => none, rows := fun _ => [] }

/-- A state whose every table holds 501 rows, one more than the threshold. -/
def overfullState : ServiceState :=
  { tableCounters := fun _ => none, rows := fun _ => List.replicate 501 ⟨0, 0⟩ }

lemma sortByRecency_length (rows : List Row) :
    (sortByRecency rows).length = rows.length :=
  List.length_insertionSort leKey rows

lemma sortByRecency_perm (rows : List Row) : (sortByRecency rows).Perm rows :=
  List.perm_insertionSort leKey rows

lemma sortByRecency_sorted (rows : List Row) :
    (sortByRecency rows).Sorted leKey :=
  List.sorted_insertionSort leKey rows

/-- On the failure-free path, `limparRegistrosAntigos` removes exactly the
first `REGISTROS_PARA_REMOVER` rows of the recency-sorted table and keeps
the rest, issuing one query and at most one delete. -/
lemma limpar_success (rows : List Row) :
    limparRegistrosAntigos false false rows =
      { remaining := (sortByRecency rows).drop REGISTROS_PARA_REMOVER,
        removedRows := (sortByRecency rows).take REGISTROS_PARA_REMOVER,
        queries := 1,
        deletes := if 0 < min REGISTROS_PARA_REMOVER rows.length then 1 else 0,
        errorLogged := false } := by
  unfold limparRegistrosAntigos limparBody
  by_cases h : 0 < min REGISTROS_PARA_REMOVER rows.length
  · simp only [if_neg Bool.false_ne_true, List.length_take, sortByRecency_length,
      if_pos h]
  · have hlen : rows.length = 0 := by
      unfold REGISTROS_PARA_REMOVER at h; omega
    have hnil : rows = [] := List.length_eq_zero.mp hlen
    subst hnil
    simp [sortByRecency, List.insertionSort]

/-- `limparRegistrosAntigos` never throws: whatever the failure flags, it
either removes the oldest batch or leaves the table unchanged. -/
lemma limpar_cases (queryFails deleteFails : Bool) (rows : List Row) :
    limparRegistrosAntigos queryFails deleteFails rows
        = limparRegistrosAntigos false false rows
    ∨ ((limparRegistrosAntigos queryFails deleteFails rows).remaining = rows
        ∧ (limparRegistrosAntigos queryFails deleteFails rows).removedRows = []
        ∧ (limparRegistrosAntigos queryFails deleteFails rows).errorLogged = true) := by
  cases queryFails with
  | true => exact Or.inr ⟨rfl, rfl, rfl⟩
  | false =>
      cases deleteFails with
      | false => exact Or.inl rfl
      | true =>
          unfold limparRegistrosAntigos limparBody
          by_cases h : 0 < ((sortByRecency rows).take REGISTROS_PARA_REMOVER).length
          · simp only [if_neg Bool.false_ne_true, if_pos h, if_pos rfl]
            exact Or.inr ⟨rfl, rfl, rfl⟩
          · simp only [if_neg Bool.false_ne_true, if_neg h]
            exact Or.inl trivial

/-- The number of rows left after any eviction attempt: unchanged on
failure, reduced by the batch on success. -/
lemma limpar_remaining_length (queryFails deleteFails : Bool) (rows : List Row) :
    (limparRegistrosAntigos queryFails deleteFails rows).remaining.length = rows.length
    ∨ (limparRegistrosAntigos queryFails deleteFails rows).remaining.length
        = rows.length - REGISTROS_PARA_REMOVER := by
  rcases limpar_cases queryFails deleteFails rows with h | ⟨h, -, -⟩
  · rw [h, limpar_success]
    exact Or.inr (by simp [sortByRecency_length])
  · rw [h]
    exact Or.inl rfl

/-- C2: one failure-free call to the eviction operation, whose batch size
`REGISTROS_PARA_REMOVER` is 250, removes exactly
`min 250 (number of rows)` rows; and no call, whatever the failure flags,
ever removes more than 250 rows. -/
theorem C2_batch_bound (rows : List Row) :
    (limparRegistrosAntigos false false rows).removedRows.length
        = min REGISTROS_PARA_REMOVER rows.length
    ∧ (∀ queryFails deleteFails : Bool,
        (limparRegistrosAntigos queryFails deleteFails rows).removedRows.length
          ≤ REGISTROS_PARA_REMOVER)
    ∧ REGISTROS_PARA_REMOVER = 250 := by
  refine ⟨?_, ?_, rfl⟩
  · rw [limpar_success]
    simp [List.length_take, sortByRecency_length]
  · intro queryFails deleteFails
    rcases limpar_cases queryFails deleteFails rows with h | ⟨-, h, -⟩
    · rw [h, limpar_success]
      simp only [List.length_take, sortByRecency_length]
      exact Nat.min_le_left _ _
    · rw [h]
      exact Nat.zero_le _

/-- C9: eviction on an empty table removes no rows, performs no delete
against the store, and logs no error. -/
theorem C9_empty_noop (deleteFails : Bool) :
    (limparRegistrosAntigos false deleteFails []).removedRows = []
    ∧ (limparRegistrosAntigos false deleteFails []).remaining = []
    ∧ (limparRegistrosAntigos false deleteFails []).deletes = 0
    ∧ (limparRegistrosAntigos false deleteFails []).errorLogged = false := by
  cases deleteFails <;> exact ⟨rfl, rfl, rfl, rfl⟩

/-- C3: when all recency keys are pairwise distinct, one eviction removes
exactly the `min REGISTROS_PARA_REMOVER (number of rows)` rows with the
smallest recency keys: removed and remaining rows together are a
permutation of the table, and every remaining row's key is at least (in
fact strictly above) every removed row's key. -/
theorem C3_oldest_first (rows : List Row)
    (hdist : rows.Pairwise (fun a b => a.recencyKey ≠ b.recencyKey)) :
    ((limparRegistrosAntigos false false rows).removedRows
        ++ (limparRegistrosAntigos false false rows).remaining).Perm rows
    ∧ (limparRegistrosAntigos false false rows).removedRows.length
        = min REGISTROS_PARA_REMOVER rows.length
    ∧ (∀ x ∈ (limparRegistrosAntigos false false rows).removedRows,
        ∀ y ∈ (limparRegistrosAntigos false false rows).remaining,
          x.recencyKey ≤ y.recencyKey)
    ∧ (∀ x ∈ (limparRegistrosAntigos false false rows).removedRows,
        ∀ y ∈ (limparRegistrosAntigos false false rows).remaining,
          x.recencyKey < y.recencyKey) := by
  rw [limpar_success]
  simp only
  have hperm : ((sortByRecency rows).take REGISTROS_PARA_REMOVER
      ++ (sortByRecency rows).drop REGISTROS_PARA_REMOVER).Perm rows := by
    rw [List.take_append_drop]
    exact sortByRecency_perm rows
  have hle : ∀ x ∈ (sortByRecency rows).take REGISTROS_PARA_REMOVER,
      ∀ y ∈ (sortByRecency rows).drop REGISTROS_PARA_REMOVER,
        x.recencyKey ≤ y.recencyKey := by
    intro x hx y hy
    exact (sortByRecency_sorted rows).rel_of_mem_take_of_mem_drop hx hy
  have hne : ∀ x ∈ (sortByRecency rows).take REGISTROS_PARA_REMOVER,
      ∀ y ∈ (sortByRecency rows).drop REGISTROS_PARA_REMOVER,
        x.recencyKey ≠ y.recencyKey := by
    have hpw : ((sortByRecency rows).take REGISTROS_PARA_REMOVER
        ++ (sortByRecency rows).drop REGISTROS_PARA_REMOVER).Pairwise
          (fun a b => a.recencyKey ≠ b.recencyKey) :=
      (List.Perm.pairwise_iff (fun h => h.symm) hperm).mpr hdist
    exact fun x hx y hy => (List.pairwise_append.mp hpw).2.2 x hx y hy
  refine ⟨hperm, by simp [List.length_take, sortByRecency_length], hle, ?_⟩
  intro x hx y hy
  exact Nat.lt_of_le_of_ne (hle x hx y hy) (hne x hx y hy)

/-- Witness for C3 at a concrete three-row table. -/
theorem C3_oldest_first_witness :
    ([(⟨3, 0⟩ : Row), ⟨1, 1⟩, ⟨2, 2⟩].Pairwise
        (fun a b => a.recencyKey ≠ b.recencyKey))
    ∧ (((limparRegistrosAntigos false false [⟨3, 0⟩, ⟨1, 1⟩, ⟨2, 2⟩]).removedRows
        ++ (limparRegistrosAntigos false false [⟨3, 0⟩, ⟨1, 1⟩, ⟨2, 2⟩]).remaining).Perm
          [⟨3, 0⟩, ⟨1, 1⟩, ⟨2, 2⟩]
      ∧ (limparRegistrosAntigos false false [⟨3, 0⟩, ⟨1, 1⟩, ⟨2, 2⟩]).removedRows.length
          = min REGISTROS_PARA_REMOVER ([(⟨3, 0⟩ : Row), ⟨1, 1⟩, ⟨2, 2⟩]).length
      ∧ (∀ x ∈ (limparRegistrosAntigos false false [⟨3, 0⟩, ⟨1, 1⟩, ⟨2, 2⟩]).removedRows,
          ∀ y ∈ (limparRegistrosAntigos false false [⟨3, 0⟩, ⟨1, 1⟩, ⟨2, 2⟩]).remaining,
            x.recencyKey ≤ y.recencyKey)
      ∧ (∀ x ∈ (limparRegistrosAntigos false false [⟨3, 0⟩, ⟨1, 1⟩, ⟨2, 2⟩]).removedRows,
          ∀ y ∈ (limparRegistrosAntigos false false [⟨3, 0⟩, ⟨1, 1⟩, ⟨2, 2⟩]).remaining,
            x.recencyKey < y.recencyKey)) :=
  ⟨by decide, C3_oldest_first [⟨3, 0⟩, ⟨1, 1⟩, ⟨2, 2⟩] (by decide)⟩

set_option maxRecDepth 10000 in
/-- C5 counterexample: reconciliation on a table with 501 rows invokes an
eviction, yet afterwards the table's counter is `some 1` (the pre-eviction
count modulo the threshold), not `some 0`. -/
theorem C5_counterexample :
    (verificarTabela false false false overfullState "events").2.1 = true
    ∧ (verificarTabela false false false overfullState "events").1.tableCounters "events"
        = some 1
    ∧ some 1 ≠ (some 0 : Option Nat) := by
  decide

/-- C5 amended: after an eviction attempt triggered by the insert handler
the counter is 0 regardless of the attempt's outcome; after a
reconciliation-driven eviction the counter is the pre-eviction row count
modulo the threshold, which need not be 0. -/
theorem C5_reset_amended (queryFails deleteFails countFails : Bool)
    (s : ServiceState) (t : TableName) :
    ((afterInsert queryFails deleteFails s t).2 = true →
      (afterInsert queryFails deleteFails s t).1.tableCounters t = some 0)
    ∧ ((verificarTabela countFails queryFails deleteFails s t).2.1 = true →
      (verificarTabela countFails queryFails deleteFails s t).1.tableCounters t
        = some ((s.rows t).length % LIMITE_REGISTROS)) := by
  constructor
  · intro h
    by_cases hc : LIMITE_REGISTROS ≤ (s.tableCounters t).getD 0 + 1
    · simp [afterInsert, hc, setCounter]
    · simp [afterInsert, hc] at h
  · intro h
    cases countFails with
    | true => exact absurd h (by simp [verificarTabela])
    | false =>
        by_cases hc : LIMITE_REGISTROS ≤ (s.rows t).length
        · simp [verificarTabela, hc, setCounter]
        · simp [verificarTabela, hc] at h

/-- Witness for C5 amended: the insert handler's 500th insert on a fresh
table evicts and leaves the counter at 0, and reconciliation of a 501-row
table leaves the counter at 501 mod 500. -/
theorem C5_reset_amended_witness :
    ((afterInsert false false (insertTrace false false emptyState "users" 499) "users").2 = true →
      (afterInsert false false (insertTrace false false emptyState "users" 499) "users").1.tableCounters "users" = some 0)
    ∧ ((verificarTabela false false false overfullState "users").2.1 = true →
      (verificarTabela false false false overfullState "users").1.tableCounters "users"
        = some ((overfullState.rows "users").length % LIMITE_REGISTROS)) :=
  C5_reset_amended false false false (insertTrace false false emptyState "users" 499) "users"
    |>.imp id (fun _ => (C5_reset_amended false false false overfullState "users").2)

set_option maxRecDepth 10000 in
/-- C6 counterexample: reconciliation of a 501-row table completes an
eviction, after which 251 rows remain — more than
`LIMITE_REGISTROS - REGISTROS_PARA_REMOVER = 250`. -/
theorem C6_counterexample :
    (verificarTabela false false false overfullState "events").2.1 = true
    ∧ ((verificarTabela false false false overfullState "events").1.rows "events").length = 251
    ∧ ¬(251 ≤ LIMITE_REGISTROS - REGISTROS_PARA_REMOVER) := by
  decide

/-- C6 amended: after a failure-free eviction completes, the row count is
the pre-eviction count minus `min REGISTROS_PARA_REMOVER count`; it is at
most `LIMITE_REGISTROS - REGISTROS_PARA_REMOVER` provided the pre-eviction
count was at most `LIMITE_REGISTROS`. -/
theorem C6_postcount_amended (rows : List Row) :
    (limparRegistrosAntigos false false rows).remaining.length
        = rows.length - min REGISTROS_PARA_REMOVER rows.length
    ∧ (rows.length ≤ LIMITE_REGISTROS →
        (limparRegistrosAntigos false false rows).remaining.length
          ≤ LIMITE_REGISTROS - REGISTROS_PARA_REMOVER) := by
  rw [limpar_success]
  simp only [List.length_drop, sortByRecency_length]
  constructor
  · simp only [REGISTROS_PARA_REMOVER]
    omega
  · intro h
    simp only [LIMITE_REGISTROS, REGISTROS_PARA_REMOVER] at h ⊢
    omega

/-- Witness for C6 amended at a concrete 500-row table: after eviction
exactly 250 rows remain. -/
theorem C6_postcount_amended_witness :
    (limparRegistrosAntigos false false (List.replicate 500 (⟨0, 0⟩ : Row))).remaining.length
        = (List.replicate 500 (⟨0, 0⟩ : Row)).length
            - min REGISTROS_PARA_REMOVER (List.replicate 500 (⟨0, 0⟩ : Row)).length
    ∧ ((List.replicate 500 (⟨0, 0⟩ : Row)).length ≤ LIMITE_REGISTROS →
        (limparRegistrosAntigos false false (List.replicate 500 (⟨0, 0⟩ : Row))).remaining.length
          ≤ LIMITE_REGISTROS - REGISTROS_PARA_REMOVER) :=
  C6_postcount_amended (List.replicate 500 ⟨0, 0⟩)

/-- Counter evolution under inserts delivered one at a time, starting from
a table absent from the counter map: after `k` inserts the counter reads
`k % LIMITE_REGISTROS`, and is materialized in the map from the first
insert on. -/
lemma insertTrace_counter (queryFails deleteFails : Bool) (s : ServiceState)
    (t : TableName) (h : s.tableCounters t = none) :
    ∀ k, ((insertTrace queryFails deleteFails s t k).tableCounters t).getD 0
        = k % LIMITE_REGISTROS
      ∧ (1 ≤ k → (insertTrace queryFails deleteFails s t k).tableCounters t
          = some (k % LIMITE_REGISTROS)) := by
  intro k
  induction k with
  | zero => simp [insertTrace, h]
  | succ k ih =>
      have h500 : k % LIMITE_REGISTROS < LIMITE_REGISTROS :=
        Nat.mod_lt _ (by simp [LIMITE_REGISTROS])
      by_cases hc : LIMITE_REGISTROS ≤ k % LIMITE_REGISTROS + 1
      · have hz : (k + 1) % LIMITE_REGISTROS = 0 := by
          simp only [LIMITE_REGISTROS] at *; omega
        simp [insertTrace, afterInsert, ih.1, hc, setCounter, hz]
      · have hs : (k + 1) % LIMITE_REGISTROS = k % LIMITE_REGISTROS + 1 := by
          simp only [LIMITE_REGISTROS] at *; omega
        simp [insertTrace, afterInsert, ih.1, hc, setCounter, hs]

/-- Insert number `k + 1` invokes an eviction exactly when it makes the
counter reach the threshold, that is, exactly when `k + 1` is a multiple
of `LIMITE_REGISTROS`. -/
lemma insertEvicts_iff (queryFails deleteFails : Bool) (s : ServiceState)
    (t : TableName) (h : s.tableCounters t = none) (k : Nat) :
    insertEvicts queryFails deleteFails s t k = true
      ↔ (k + 1) % LIMITE_REGISTROS = 0 := by
  have ih := (insertTrace_counter queryFails deleteFails s t h k).1
  have h500 : k % LIMITE_REGISTROS < LIMITE_REGISTROS :=
    Nat.mod_lt _ (by simp [LIMITE_REGISTROS])
  by_cases hc : LIMITE_REGISTROS ≤ k % LIMITE_REGISTROS + 1
  · simp only [insertEvicts, afterInsert, ih, if_pos hc]
    constructor
    · intro _; simp only [LIMITE_REGISTROS] at *; omega
    · intro _; trivial
  · simp only [insertEvicts, afterInsert, ih, if_neg hc]
    constructor
    · intro hfalse; exact absurd hfalse Bool.false_ne_true
    · intro hz; simp only [LIMITE_REGISTROS] at *; omega

/-- C1: with insert events delivered one at a time for a table whose
counter is initially absent, after `k` inserts the counter holds
`k % LIMITE_REGISTROS` — the number of inserts since the last eviction
trigger, created at 1 on the first insert — and the next insert invokes an
eviction exactly when it is the one on which the counter first reaches the
threshold, i.e. exactly when the insert's ordinal is a multiple of 500. -/
theorem C1_threshold_trigger (queryFails deleteFails : Bool) (s : ServiceState)
    (t : TableName) (h : s.tableCounters t = none) (k : Nat) :
    (1 ≤ k → (insertTrace queryFails deleteFails s t k).tableCounters t
        = some (k % LIMITE_REGISTROS))
    ∧ (insertEvicts queryFails deleteFails s t k = true
        ↔ (k + 1) % LIMITE_REGISTROS = 0) :=
  ⟨(insertTrace_counter queryFails deleteFails s t h k).2,
   insertEvicts_iff queryFails deleteFails s t h k⟩

/-- Witness for C1 after 499 inserts on a fresh table: the counter reads
499 and the 500th insert is the one that evicts. -/
theorem C1_threshold_trigger_witness :
    ((1 ≤ 499 → (insertTrace false false emptyState "users" 499).tableCounters "users"
        = some (499 % LIMITE_REGISTROS))
    ∧ (insertEvicts false false emptyState "users" 499 = true
        ↔ (499 + 1) % LIMITE_REGISTROS = 0)) :=
  C1_threshold_trigger false false emptyState "users" rfl 499

/-- The documented range invariant of the counter map: every counter
present in the map is strictly below the threshold. -/
def CountersOk (s : ServiceState) : Prop :=
  ∀ t n, s.tableCounters t = some n → n < LIMITE_REGISTROS

lemma countersOk_afterInsert (queryFails deleteFails : Bool) (s : ServiceState)
    (t : TableName) (h : CountersOk s) :
    CountersOk (afterInsert queryFails deleteFails s t).1 := by
  intro x n hx
  by_cases hxt : x = t
  · subst hxt
    by_cases hc : LIMITE_REGISTROS ≤ (s.tableCounters x).getD 0 + 1
    · simp [afterInsert, hc, setCounter] at hx
      simp only [LIMITE_REGISTROS] at *; omega
    · simp [afterInsert, hc, setCounter] at hx
      simp only [LIMITE_REGISTROS] at *; omega
  · by_cases hc : LIMITE_REGISTROS ≤ (s.tableCounters t).getD 0 + 1
    · simp [afterInsert, hc, setCounter, hxt] at hx
      exact h x n hx
    · simp [afterInsert, hc, setCounter, hxt] at hx
      exact h x n hx

lemma countersOk_verificarTabela (countFails queryFails deleteFails : Bool)
    (s : ServiceState) (t : TableName) (h : CountersOk s) :
    CountersOk (verificarTabela countFails queryFails deleteFails s t).1 := by
  intro x n hx
  cases countFails with
  | true => exact h x n hx
  | false =>
      have hmod : (s.rows t).length % LIMITE_REGISTROS < LIMITE_REGISTROS :=
        Nat.mod_lt _ (by simp [LIMITE_REGISTROS])
      by_cases hxt : x = t
      · subst hxt
        by_cases hc : LIMITE_REGISTROS ≤ (s.rows x).length
        · simp [verificarTabela, hc, setCounter] at hx
          omega
        · simp [verificarTabela, hc, setCounter] at hx
          omega
      · by_cases hc : LIMITE_REGISTROS ≤ (s.rows t).length
        · simp [verificarTabela, hc, setCounter, hxt] at hx
          exact h x n hx
        · simp [verificarTabela, hc, setCounter, hxt] at hx
          exact h x n hx

lemma countersOk_pass (countFails queryFails deleteFails : TableName → Bool)
    (ents : List TableName) :
    ∀ s, CountersOk s →
      CountersOk (verificarEstadoAtual countFails queryFails deleteFails s ents).1 := by
  induction ents with
  | nil => intro s h; exact h
  | cons t ts ih =>
      intro s h
      exact ih _ (countersOk_verificarTabela _ _ _ s t h)

/-- C7: the counter-range invariant is preserved by the completed insert
handler and by the reconciliation pass: starting from any state whose
counters all lie in `[0, LIMITE_REGISTROS)`, both leave every counter in
`[0, LIMITE_REGISTROS)`. -/
theorem C7_counter_invariant (queryFails deleteFails : Bool)
    (countFailsF queryFailsF deleteFailsF : TableName → Bool)
    (s : ServiceState) (t : TableName) (ents : List TableName)
    (h : CountersOk s) :
    CountersOk (afterInsert queryFails deleteFails s t).1
    ∧ CountersOk (verificarEstadoAtual countFailsF queryFailsF deleteFailsF s ents).1 :=
  ⟨countersOk_afterInsert queryFails deleteFails s t h,
   countersOk_pass countFailsF queryFailsF deleteFailsF ents s h⟩

/-- Witness for C7 at the empty state with one table. -/
theorem C7_counter_invariant_witness :
    CountersOk (afterInsert false false emptyState "users").1
    ∧ CountersOk (verificarEstadoAtual (fun _ => false) (fun _ => false)
        (fun _ => false) emptyState ["users"]).1 :=
  C7_counter_invariant false false (fun _ => false) (fun _ => false) (fun _ => false)
    emptyState "users" ["users"] (fun _ _ hx => Option.noConfusion hx)

/-- The reconciliation pass over a concatenation splits into two passes,
with the logs concatenated. -/
lemma pass_append (countFails queryFails deleteFails : TableName → Bool)
    (l₁ l₂ : List TableName) :
    ∀ s, verificarEstadoAtual countFails queryFails deleteFails s (l₁ ++ l₂)
      = ((verificarEstadoAtual countFails queryFails deleteFails
            (verificarEstadoAtual countFails queryFails deleteFails s l₁).1 l₂).1,
         (verificarEstadoAtual countFails queryFails deleteFails s l₁).2
           ++ (verificarEstadoAtual countFails queryFails deleteFails
                (verificarEstadoAtual countFails queryFails deleteFails s l₁).1 l₂).2) := by
  induction l₁ with
  | nil => intro s; rfl
  | cons t ts ih =>
      intro s
      simp only [List.cons_append, verificarEstadoAtual, ih, List.append_eq]

/-- Processing one table of the reconciliation loop leaves every other
table's counter and rows untouched. -/
lemma verificarTabela_preserves (countFails queryFails deleteFails : Bool)
    (s : ServiceState) (x t : TableName) (hxt : x ≠ t) :
    (verificarTabela countFails queryFails deleteFails s t).1.tableCounters x
        = s.tableCounters x
    ∧ (verificarTabela countFails queryFails deleteFails s t).1.rows x = s.rows x := by
  cases countFails with
  | true => exact ⟨rfl, rfl⟩
  | false =>
      by_cases hc : LIMITE_REGISTROS ≤ (s.rows t).length
      · constructor <;> simp [verificarTabela, hc, setCounter, setRows, hxt]
      · constructor <;> simp [verificarTabela, hc, setCounter, hxt]

/-- A reconciliation pass over tables not containing `x` leaves `x`'s
counter and rows untouched and logs no eviction for `x`. -/
lemma pass_preserves (countFails queryFails deleteFails : TableName → Bool)
    (x : TableName) (ents : List TableName) (hx : x ∉ ents) (s : ServiceState) :
    (verificarEstadoAtual countFails queryFails deleteFails s ents).1.tableCounters x
        = s.tableCounters x
    ∧ (verificarEstadoAtual countFails queryFails deleteFails s ents).1.rows x = s.rows x
    ∧ evictionsFor x (verificarEstadoAtual countFails queryFails deleteFails s ents).2
        = 0 := by
  induction ents generalizing s with
  | nil => exact ⟨rfl, rfl, rfl⟩
  | cons t ts ih =>
      have hxt : x ≠ t := fun hh => hx (hh ▸ List.mem_cons_self t ts)
      have hxts : x ∉ ts := fun hh => hx (List.mem_cons_of_mem t hh)
      have hstep := verificarTabela_preserves (countFails t) (queryFails t)
        (deleteFails t) s x t hxt
      obtain ⟨h1, h2, h3⟩ := ih hxts
        (verificarTabela (countFails t) (queryFails t) (deleteFails t) s t).1
      refine ⟨?_, ?_, ?_⟩
      · simp only [verificarEstadoAtual]
        rw [h1, hstep.1]
      · simp only [verificarEstadoAtual]
        rw [h2, hstep.2]
      · have hbeq : (t == x) = false := by
          simp [Ne.symm hxt]
        simp only [verificarEstadoAtual, evictionsFor, List.countP_cons, hbeq,
          Bool.false_and, if_neg Bool.false_ne_true, Nat.add_zero] at h3 ⊢
        exact h3

/-- The evicting branch of one reconciliation loop iteration, explicitly. -/
lemma verificarTabela_evict (queryFails deleteFails : Bool) (s : ServiceState)
    (t : TableName) (hc : LIMITE_REGISTROS ≤ (s.rows t).length) :
    verificarTabela false queryFails deleteFails s t
      = ({ tableCounters := setCounter s.tableCounters t
            ((s.rows t).length % LIMITE_REGISTROS),
           rows := setRows s.rows t
            (limparRegistrosAntigos queryFails deleteFails (s.rows t)).remaining },
         true, (limparRegistrosAntigos queryFails deleteFails (s.rows t)).errorLogged) := by
  simp [verificarTabela, hc]

/-- C4: a reconciliation pass over an enumeration containing the table
exactly once, on a table with 1240 rows, invokes exactly one eviction for
it (removing at most one batch, so at least 990 rows remain) and then
seeds its counter to `some (1240 % 500) = some 240` — the count observed
before the eviction call. -/
theorem C4_reconciliation_seeding (countFails queryFails deleteFails : TableName → Bool)
    (s : ServiceState) (t : TableName) (l₁ l₂ : List TableName)
    (h1 : t ∉ l₁) (h2 : t ∉ l₂) (hcf : countFails t = false)
    (hcount : (s.rows t).length = 1240) :
    (verificarEstadoAtual countFails queryFails deleteFails s (l₁ ++ t :: l₂)).1.tableCounters t
        = some 240
    ∧ evictionsFor t
        (verificarEstadoAtual countFails queryFails deleteFails s (l₁ ++ t :: l₂)).2 = 1
    ∧ 1240 - REGISTROS_PARA_REMOVER
        ≤ ((verificarEstadoAtual countFails queryFails deleteFails s
              (l₁ ++ t :: l₂)).1.rows t).length := by
  have happ := pass_append countFails queryFails deleteFails l₁ (t :: l₂) s
  have hpre := pass_preserves countFails queryFails deleteFails t l₁ h1 s
  set s1 := (verificarEstadoAtual countFails queryFails deleteFails s l₁).1 with hs1
  have hcount1 : (s1.rows t).length = 1240 := by rw [hpre.2.1, hcount]
  have hc : LIMITE_REGISTROS ≤ (s1.rows t).length := by
    rw [hcount1]; simp [LIMITE_REGISTROS]
  have hstep : verificarTabela (countFails t) (queryFails t) (deleteFails t) s1 t
      = ({ tableCounters := setCounter s1.tableCounters t
            ((s1.rows t).length % LIMITE_REGISTROS),
           rows := setRows s1.rows t
            (limparRegistrosAntigos (queryFails t) (deleteFails t) (s1.rows t)).remaining },
         true, (limparRegistrosAntigos (queryFails t) (deleteFails t)
                  (s1.rows t)).errorLogged) := by
    rw [hcf]
    exact verificarTabela_evict (queryFails t) (deleteFails t) s1 t hc
  set s2 := (verificarTabela (countFails t) (queryFails t) (deleteFails t) s1 t).1
    with hs2
  have hpost := pass_preserves countFails queryFails deleteFails t l₂ h2 s2
  have hs2counters : s2.tableCounters t = some 240 := by
    rw [hs2, hstep]
    simp only [setCounter, if_pos rfl, hcount1]
    norm_num [LIMITE_REGISTROS]
  have hs2rows : s2.rows t
      = (limparRegistrosAntigos (queryFails t) (deleteFails t) (s1.rows t)).remaining := by
    rw [hs2, hstep]
    simp [setRows]
  have hrowslen : 1240 - REGISTROS_PARA_REMOVER ≤ (s2.rows t).length := by
    rw [hs2rows]
    rcases limpar_remaining_length (queryFails t) (deleteFails t) (s1.rows t) with hl | hl
    · rw [hl, hcount1]
      simp [REGISTROS_PARA_REMOVER]
    · rw [hl, hcount1]
  rw [happ]
  simp only [verificarEstadoAtual]
  rw [← hs2]
  refine ⟨?_, ?_, ?_⟩
  · rw [(pass_preserves countFails queryFails deleteFails t l₂ h2 s2).1]
    exact hs2counters
  · have hflag : (verificarTabela (countFails t) (queryFails t) (deleteFails t) s1 t).2.1
        = true := by rw [hstep]
    simp only [evictionsFor] at hpre hpost ⊢
    rw [List.countP_append, List.countP_cons, hpre.2.2, hpost.2.2]
    simp [hflag]
  · rw [(pass_preserves countFails queryFails deleteFails t l₂ h2 s2).2.1]
    exact hrowslen

/-- A concrete state whose every table holds 1240 rows. -/
def seedState1240 : ServiceState :=
  { tableCounters := fun _ => none, rows := fun _ => List.replicate 1240 ⟨0, 0⟩ }

set_option maxRecDepth 10000 in
/-- Witness for C4 at a one-table enumeration over a 1240-row table. -/
theorem C4_reconciliation_seeding_witness :
    ("articles" ∉ ([] : List TableName))
    ∧ ((verificarEstadoAtual (fun _ => false) (fun _ => false) (fun _ => false)
          seedState1240 ([] ++ "articles" :: [])).1.tableCounters "articles" = some 240
      ∧ evictionsFor "articles"
          (verificarEstadoAtual (fun _ => false) (fun _ => false) (fun _ => false)
            seedState1240 ([] ++ "articles" :: [])).2 = 1
      ∧ 1240 - REGISTROS_PARA_REMOVER
          ≤ ((verificarEstadoAtual (fun _ => false) (fun _ => false) (fun _ => false)
                seedState1240 ([] ++ "articles" :: [])).1.rows "articles").length) :=
  ⟨List.not_mem_nil "articles",
   C4_reconciliation_seeding (fun _ => false) (fun _ => false) (fun _ => false)
     seedState1240 "articles" [] [] (List.not_mem_nil "articles")
     (List.not_mem_nil "articles") rfl (by simp [seedState1240])⟩

/-- C10: when reading a table's row count fails during reconciliation, the
loop iteration for that table leaves the whole state untouched (its counter
is not seeded and no eviction is attempted) and only logs the error, and
the pass state is the same as if that table were absent from the
enumeration — every remaining table is still processed. -/
theorem C10_count_failure_skips (countFails queryFails deleteFails : TableName → Bool)
    (s : ServiceState) (t : TableName) (l₁ l₂ : List TableName)
    (hcf : countFails t = true) :
    (∀ s', verificarTabela (countFails t) (queryFails t) (deleteFails t) s' t
        = (s', false, true))
    ∧ (verificarEstadoAtual countFails queryFails deleteFails s (l₁ ++ t :: l₂)).1
        = (verificarEstadoAtual countFails queryFails deleteFails s (l₁ ++ l₂)).1 := by
  have hstep : ∀ s', verificarTabela (countFails t) (queryFails t) (deleteFails t) s' t
      = (s', false, true) := by
    intro s'
    simp [verificarTabela, hcf]
  refine ⟨hstep, ?_⟩
  rw [pass_append countFails queryFails deleteFails l₁ (t :: l₂) s,
    pass_append countFails queryFails deleteFails l₁ l₂ s]
  simp only [verificarEstadoAtual, hstep]

/-- Witness for C10: count failure on the middle table of a three-table
enumeration. -/
theorem C10_count_failure_skips_witness :
    (∀ s', verificarTabela ((fun x => x == "b") "b") ((fun _ => false) "b")
        ((fun _ => false) "b") s' "b" = (s', false, true))
    ∧ (verificarEstadoAtual (fun x => x == "b") (fun _ => false) (fun _ => false)
          emptyState (["a"] ++ "b" :: ["c"])).1
        = (verificarEstadoAtual (fun x => x == "b") (fun _ => false) (fun _ => false)
            emptyState (["a"] ++ ["c"])).1 :=
  C10_count_failure_skips (fun x => x == "b") (fun _ => false) (fun _ => false)
    emptyState "b" ["a"] ["c"] rfl

/-- Every eviction attempt performs exactly one store query. -/
lemma limpar_queries (queryFails deleteFails : Bool) (rows : List Row) :
    (limparRegistrosAntigos queryFails deleteFails rows).queries = 1 := by
  cases hb : limparBody queryFails deleteFails rows with
  | error d => simp [limparRegistrosAntigos, hb]
  | ok v =>
      obtain ⟨rem, removed, d⟩ := v
      simp [limparRegistrosAntigos, hb]

/-- Every eviction attempt performs at most one delete operation. -/
lemma limpar_deletes_le (queryFails deleteFails : Bool) (rows : List Row) :
    (limparRegistrosAntigos queryFails deleteFails rows).deletes ≤ 1 := by
  unfold limparRegistrosAntigos limparBody
  cases queryFails with
  | true => simp
  | false =>
      by_cases hpos : 0 < rows.length
      · have h2 : 0 < (sortByRecency rows).length := by
          rw [sortByRecency_length]; exact hpos
        have h1 : 0 < REGISTROS_PARA_REMOVER := by simp [REGISTROS_PARA_REMOVER]
        cases deleteFails <;> simp [h1, h2]
      · have hz : (sortByRecency rows).length = 0 := by
          rw [sortByRecency_length]; omega
        simp [hz]

/-- C8: the three store-failure kinds are recovered locally.  A query
failure and a delete failure during eviction leave the table unchanged,
remove nothing, and are only logged; each eviction attempt issues exactly
one query and at most one delete, so no failed operation is retried; a
count failure during reconciliation leaves the state untouched and is only
logged; and the insert handler's tracker update (counter map and eviction
decision) is identical whether or not the store operations fail, so
failures never propagate into the insert path.  All operations are total
functions of the state: no exception reaches the caller. -/
theorem C8_local_recovery (queryFails deleteFails : Bool) (rows : List Row)
    (s : ServiceState) (t : TableName) :
    ((limparRegistrosAntigos true deleteFails rows).errorLogged = true
      ∧ (limparRegistrosAntigos true deleteFails rows).remaining = rows
      ∧ (limparRegistrosAntigos true deleteFails rows).removedRows = [])
    ∧ ((limparRegistrosAntigos false true rows).remaining = rows
      ∧ (limparRegistrosAntigos false true rows).removedRows = []
      ∧ (0 < rows.length → (limparRegistrosAntigos false true rows).errorLogged = true))
    ∧ (limparRegistrosAntigos queryFails deleteFails rows).queries = 1
    ∧ (limparRegistrosAntigos queryFails deleteFails rows).deletes ≤ 1
    ∧ verificarTabela true queryFails deleteFails s t = (s, false, true)
    ∧ (afterInsert queryFails deleteFails s t).1.tableCounters
        = (afterInsert false false s t).1.tableCounters
    ∧ (afterInsert queryFails deleteFails s t).2 = (afterInsert false false s t).2 := by
  refine ⟨⟨rfl, rfl, rfl⟩, ?_, limpar_queries queryFails deleteFails rows,
    limpar_deletes_le queryFails deleteFails rows, rfl, ?_, ?_⟩
  · by_cases hpos : 0 < rows.length
    · have h2 : 0 < (sortByRecency rows).length := by
        rw [sortByRecency_length]; exact hpos
      have h1 : 0 < REGISTROS_PARA_REMOVER := by simp [REGISTROS_PARA_REMOVER]
      refine ⟨?_, ?_, fun _ => ?_⟩ <;>
        simp [limparRegistrosAntigos, limparBody, h1, h2]
    · have hz : (sortByRecency rows).length = 0 := by
        rw [sortByRecency_length]; omega
      refine ⟨?_, ?_, fun hp => absurd hp (by omega)⟩ <;>
        simp [limparRegistrosAntigos, limparBody, hz]
  · by_cases hc : LIMITE_REGISTROS ≤ (s.tableCounters t).getD 0 + 1 <;>
      simp [afterInsert, hc]
  · by_cases hc : LIMITE_REGISTROS ≤ (s.tableCounters t).getD 0 + 1 <;>
      simp [afterInsert, hc]

/-- Witness for C8 at a one-row table. -/
theorem C8_local_recovery_witness :
    ((limparRegistrosAntigos true false [⟨0, 0⟩]).errorLogged = true
      ∧ (limparRegistrosAntigos true false [⟨0, 0⟩]).remaining = [⟨0, 0⟩]
      ∧ (limparRegistrosAntigos true false [⟨0, 0⟩]).removedRows = [])
    ∧ ((limparRegistrosAntigos false true [⟨0, 0⟩]).remaining = [⟨0, 0⟩]
      ∧ (limparRegistrosAntigos false true [⟨0, 0⟩]).removedRows = []
      ∧ (0 < [(⟨0, 0⟩ : Row)].length →
          (limparRegistrosAntigos false true [⟨0, 0⟩]).errorLogged = true))
    ∧ (limparRegistrosAntigos true false [⟨0, 0⟩]).queries = 1
    ∧ (limparRegistrosAntigos true false [⟨0, 0⟩]).deletes ≤ 1
    ∧ verificarTabela true true false emptyState "users" = (emptyState, false, true)
    ∧ (afterInsert true false emptyState "users").1.tableCounters
        = (afterInsert false false emptyState "users").1.tableCounters
    ∧ (afterInsert true false emptyState "users").2
        = (afterInsert false false emptyState "users").2 :=
  C8_local_recovery true false [⟨0, 0⟩] emptyState "users"

end DatabaseCleanup
